import Mathlib

/-!
Shallow embedding of the VectorWorkspaces ingestion-and-retrieval core
(backend/app/services: document_processor.py, vector_store.py, freshness.py,
rag.py, ingestion_service.py) together with theorems settling the spec claims.

Modelling conventions:
* Python floats are modelled as exact rationals (`Rat`); the claims concern
  ordering, filtering and control flow, not rounding.
* The tiktoken tokenizer and the sentence-transformer embedder are external
  collaborators; they enter as function parameters (`encode`, `decode`,
  `embed`) of the operations that use them.
* SQLAlchemy sessions: `add` + `flush` mutate only the in-session view;
  `commit` makes the view durable.  The system state `Sys` records the
  durable relational state and the persisted per-tenant index files.
* faiss `IndexFlatL2` (wrapped in `IndexIDMap` by `add_vectors`) is modelled
  as an id-addressable list of `(id, vector)` entries; its `search` is the
  exhaustive squared-L2 scan, results sorted by ascending distance, truncated
  to `min k ntotal` — exactly the flat-index contract.  `search` is only ever
  exercised by theorems at arguments where the flat index is defined
  (`k ≥ 1`, or the empty-index early return which never reaches faiss).
-/

namespace VectorWorkspaces

/-- Embedding vectors: fixed-dimension float arrays, modelled as rational lists. -/
abbrev Vec := List Rat

/-- db/models/knowledge_source.py: SourceType enum. -/
inductive SourceType
  | api
  | manual_upload
  | directory_ingestion
deriving Repr, DecidableEq, BEq

/-- db/models/knowledge_source.py: KnowledgeSource row (fields used by the core). -/
structure KnowledgeSource where
  id : Nat
  tenant_id : Nat
  source_type : SourceType
  source_id : String
  name : String
deriving Repr, DecidableEq

/-- db/models/document.py: Document row (fields used by the core). -/
structure Document where
  id : Nat
  tenant_id : Nat
  knowledge_source_id : Nat
  source_id : String
  version : Nat
deriving Repr, DecidableEq

/-- db/models/document_chunk.py: DocumentChunk row.  `days_since_update`
models `datetime.utcnow() - last_updated_at` in whole days as consumed by
freshness.py; `none` models a NULL timestamp. -/
structure DocumentChunk where
  id : Nat
  tenant_id : Nat
  document_id : Nat
  chunk_index : Nat
  chunk_text : String
  faiss_id : Option Nat
  source_id : String
  version : Nat
  days_since_update : Option Int
  is_deprecated : Bool
deriving Repr, DecidableEq

/-- document_processor.py lines 20-34: the `while start < len(tokens)` loop of
`chunk_text`, one constructor application per iteration.  `fuel` bounds the
number of iterations; `none` means the loop did not finish within `fuel`
iterations.  The advance `start += chunk_size - chunk_overlap` uses Nat
subtraction, which agrees with Python for `chunk_overlap ≤ chunk_size`
(in particular the advance is 0 when they are equal, and the loop never
terminates on a long enough token stream). -/
def chunkLoop (tokens : List Nat) (chunk_size chunk_overlap : Nat) :
    Nat → Nat → List (List Nat) → Option (List (List Nat))
  | 0, _, _ => none
  | fuel + 1, start, chunks =>
    if start < tokens.length then
      let chunk_tokens := (tokens.drop start).take chunk_size
      let chunks2 := chunks ++ [chunk_tokens]
      if tokens.length ≤ start + chunk_size then some chunks2
      else chunkLoop tokens chunk_size chunk_overlap fuel
        (start + (chunk_size - chunk_overlap)) chunks2
    else some chunks

/-- document_processor.py lines 11-34: `chunk_text(text, chunk_size, chunk_overlap)`.
`encode`/`decode` are the tiktoken cl100k_base codec (external, deterministic).
The fuel `tokens.length + 1` is sufficient whenever `chunk_overlap < chunk_size`
(proved below); `none` reports that the source loop diverges. -/
def chunk_text (encode : String → List Nat) (decode : List Nat → String)
    (text : String) (chunk_size chunk_overlap : Nat) : Option (List String) :=
  let tokens := encode text
  (chunkLoop tokens chunk_size chunk_overlap (tokens.length + 1) 0 []).map
    (fun l => l.map decode)

/-- freshness.py: `calculate_freshness_score(last_updated_at, freshness_weight)`.
Takes the elapsed days directly; `none` is a NULL `last_updated_at`. -/
def calculate_freshness_score (days_since_update : Option Int)
    (freshness_weight : Rat) : Rat :=
  match days_since_update with
  | none => 1
  | some d => max (1 / 10 : Rat) (1 + ((d : Rat) / 365) * freshness_weight)

/-- vector_store.py: the in-memory faiss index.  `IndexFlatL2(384)` wrapped in
`IndexIDMap` is an id-addressable store of vectors; entry order is insertion
order. -/
structure FaissIndex where
  dimension : Nat
  entries : List (Int × Vec)
deriving Repr, DecidableEq

/-- vector_store.py line 30: `faiss.IndexFlatL2(self.dimension)` with
`self.dimension = 384` (line 15) — a fresh empty index. -/
def createIndex : FaissIndex := ⟨384, []⟩

/-- On-disk state of the persisted index file of a tenant. -/
inductive IndexFile
  | absent
  | corrupt
  | good (idx : FaissIndex)
deriving Repr, DecidableEq

/-- vector_store.py line 20: `faiss.read_index(self.index_path)` — succeeds on a
well-formed file, raises on a corrupt or missing one. -/
def read_index : IndexFile → Except String FaissIndex
  | .good idx => .ok idx
  | .corrupt => .error "failed to read index"
  | .absent => .error "file not found"

/-- vector_store.py lines 17-27: `load_index` — if the file exists, try to read
it, falling back to `_create_index()` on any exception; otherwise create a
fresh empty index. -/
def load_index (file : IndexFile) : FaissIndex :=
  match file with
  | .absent => createIndex
  | f =>
    match read_index f with
    | .ok idx => idx
    | .error _ => createIndex

/-- Squared Euclidean (L2) distance, the `IndexFlatL2` metric. -/
def sqDist (q v : Vec) : Rat :=
  ((q.zip v).map (fun p => (p.1 - p.2) * (p.1 - p.2))).sum

/-- vector_store.py lines 49-59: `search(query_vector, k)`.  Empty index →
empty result before faiss is consulted; otherwise `k = min(k, ntotal)` and the
flat index returns the k nearest entries by ascending squared-L2 distance
(`List.insertionSort` with a non-strict total relation is a stable sort, so
equal distances keep insertion order, as the exhaustive flat scan does). -/
def FaissIndex.search (idx : FaissIndex) (q : Vec) (k : Int) :
    List Rat × List Int :=
  if idx.entries.length = 0 then ([], [])
  else
    let kk := min k (idx.entries.length : Int)
    let scored := idx.entries.map (fun e => (sqDist q e.2, e.1))
    let sorted := List.insertionSort (fun a b => a.1 ≤ b.1) scored
    let top := sorted.take kk.toNat
    (top.map Prod.fst, top.map Prod.snd)

/-- vector_store.py lines 37-43: `add_with_ids(vectors, ids)` — appends the
(id, vector) pairs to the id-addressable index. -/
def FaissIndex.add_with_ids (idx : FaissIndex) (vectors : List Vec)
    (ids : List Int) : FaissIndex :=
  { idx with entries := idx.entries ++ ids.zip vectors }

/-- Persisted index files, one per tenant (`{tenant_id}.index` under the
storage root).  Only well-formed persisted states arise from writes by the
writes; file corruption is modelled separately by `IndexFile`. -/
abbrev IndexFiles := List (Nat × FaissIndex)

/-- vector_store.py lines 10-27 as exercised by the services:
`VectorStore(tenant_id)` followed by `load_index()` yields the persisted
index of the tenant if its file exists, else a fresh empty index. -/
def loadTenantIndex (files : IndexFiles) (tenant_id : Nat) : FaissIndex :=
  match files.find? (fun f => f.1 == tenant_id) with
  | some f => f.2
  | none => createIndex

/-- vector_store.py lines 61-63: `_save_index` — write-through persistence of
the index file of the tenant (overwrites the file at its path). -/
def saveTenantIndex (files : IndexFiles) (tenant_id : Nat)
    (idx : FaissIndex) : IndexFiles :=
  (tenant_id, idx) :: files.filter (fun f => f.1 != tenant_id)

/-- rag.py lines 49-54: the scored-result dict for one retrieved chunk. -/
structure ScoredChunk where
  chunk : DocumentChunk
  similarity_score : Rat
  freshness_score : Rat
  final_score : Rat
deriving Repr, DecidableEq

/-- Python-level exceptions that the embedded services can raise.
`nameError` models a NameError (reference to an undefined variable);
`configurationError` is the ConfigurationError demanded by the spec error
taxonomy (no code path constructs it — the class does not exist in the
repository); `outOfFuel` is a modelling artifact marking loop fuel
exhaustion, proved unreachable where used. -/
inductive PyError
  | nameError (name : String)
  | configurationError
  | outOfFuel
deriving Repr, DecidableEq

/-- Python `l[:k]`: for `k ≥ 0` the first `k` elements, for `k < 0` all but
the last `-k` elements. -/
def pySliceTo {α : Type} (l : List α) (k : Int) : List α :=
  if 0 ≤ k then l.take k.toNat
  else l.take (l.length - (-k).toNat)

/-- Descending-final-score comparison used by
`chunks.sort(key=..., reverse=True)` (rag.py line 56); the Python sort is
stable, as is `List.insertionSort` with this non-strict total relation. -/
def scoreDescGe (a b : ScoredChunk) : Prop := b.final_score ≤ a.final_score

instance : DecidableRel scoreDescGe := fun a b =>
  inferInstanceAs (Decidable (b.final_score ≤ a.final_score))

/-- rag.py lines 26-54: the body of the `for distance, faiss_id in zip(...)`
loop, as a fold step appending to the accumulated result list.  `ncands` is
`len(faiss_ids)`, the number of candidates returned by the index search,
which line 27 compares the candidate id against. -/
def retrieveAccum (chunks_table : List DocumentChunk) (tenant_id : Nat)
    (exclude_deprecated : Bool) (freshness_weight : Rat) (ncands : Nat)
    (acc : List ScoredChunk) (cand : Rat × Int) : List ScoredChunk :=
  let distance := cand.1
  let faiss_id := cand.2
  if faiss_id = -1 ∨ (ncands : Int) ≤ faiss_id then acc
  else
    match chunks_table.find?
        (fun c => c.tenant_id == tenant_id && ((c.id : Int) == faiss_id)) with
    | none => acc
    | some chunk =>
      if exclude_deprecated && chunk.is_deprecated then acc
      else
        let similarity0 := 1 / (1 + max distance (1 / 1000 : Rat))
        let freshness_score :=
          calculate_freshness_score chunk.days_since_update freshness_weight
        let similarity_score :=
          if chunk.is_deprecated then similarity0 * (1 / 10) else similarity0
        let final_score := similarity_score * freshness_score
        acc ++ [⟨chunk, similarity_score, freshness_score, final_score⟩]

/-- rag.py lines 10-57: `retrieve_chunks`.  `chunks_table` is the
document_chunks table; `files` the persisted index files; `embed_text` the
embedding service.  The source raises no exception on this path, so the
result is always `Except.ok`; the `Except PyError` codomain records which
exceptions Python could propagate. -/
def retrieve_chunks (embed_text : String → Vec)
    (chunks_table : List DocumentChunk) (files : IndexFiles)
    (tenant_id : Nat) (query : String) (top_k : Int)
    (freshness_weight : Rat) (exclude_deprecated : Bool) :
    Except PyError (List ScoredChunk) :=
  let query_vector := embed_text query
  let index := loadTenantIndex files tenant_id
  let sr := index.search query_vector (top_k * 2)
  let distances := sr.1
  let faiss_ids := sr.2
  let chunks := (distances.zip faiss_ids).foldl
    (retrieveAccum chunks_table tenant_id exclude_deprecated freshness_weight
      faiss_ids.length) []
  let sorted := List.insertionSort scoreDescGe chunks
  .ok (pySliceTo sorted top_k)

/-- schemas/knowledge.py: KnowledgeIngest request body. -/
structure KnowledgeIngest where
  content : String
  source_type : SourceType
  source_id : String
  version : Nat
  name : String
deriving Repr, DecidableEq

/-- The relational store: the three tables of §3 plus per-table primary-key
allocators (flush assigns the next key). -/
structure DB where
  sources : List KnowledgeSource
  docs : List Document
  chunks : List DocumentChunk
  nextSourceId : Nat
  nextDocId : Nat
  nextChunkId : Nat
deriving Repr, DecidableEq

/-- Durable system state: committed relational rows plus persisted per-tenant
index files. -/
structure Sys where
  db : DB
  files : IndexFiles
deriving Repr, DecidableEq

/-- The dicts `ingest_knowledge` can return (ingestion_service.py lines 37,
50, 82).  `ingested` is the line-82 contract `{document_id, chunks}`; it is
never produced because line 82 raises (see `ingest_knowledge`). -/
inductive IngestRet
  | alreadyExists (document_id : Nat)
  | noContent (document_id : Nat)
  | ingested (document_id : Nat) (chunks : Nat)
deriving Repr, DecidableEq

/-- Result of one `ingest_knowledge` call: the Python-level outcome, the final
durable state, and the ordered list of durable states the run passes through
(initial state, then the state after each `db.commit()` and each
write-through index mutation).  An interruption at any point leaves the
system in one of the `snapshots`. -/
structure IngestOutcome where
  ret : Except PyError IngestRet
  final : Sys
  snapshots : List Sys
deriving Repr

/-- ingestion_service.py lines 57-69: the `for i, chunk_text_item in
enumerate(chunks)` loop — adds one DocumentChunk row per chunk (flush assigns
its primary key) and collects the assigned ids. -/
def addChunkRows (tenant_id document_id : Nat) (source_id : String)
    (version : Nat) : DB → Nat → List String → DB × List Nat
  | view, _, [] => (view, [])
  | view, i, ct :: rest =>
    let row : DocumentChunk :=
      ⟨view.nextChunkId, tenant_id, document_id, i, ct, none, source_id,
        version, some 0, false⟩
    let view2 := { view with
      chunks := view.chunks ++ [row], nextChunkId := view.nextChunkId + 1 }
    let res := addChunkRows tenant_id document_id source_id version view2
      (i + 1) rest
    (res.1, row.id :: res.2)

/-- ingestion_service.py lines 77-79: look up the first chunk row with the
given id (no tenant filter in the source) and set its `faiss_id` to that id. -/
def setFaissFirst : List DocumentChunk → Nat → List DocumentChunk
  | [], _ => []
  | c :: rest, chunk_id =>
    if c.id = chunk_id then { c with faiss_id := some chunk_id } :: rest
    else c :: setFaissFirst rest chunk_id

/-- ingestion_service.py lines 76-79: the confirmation loop over
`chunk_ids`. -/
def confirmFaissIds (chunks : List DocumentChunk) (chunk_ids : List Nat) :
    List DocumentChunk :=
  chunk_ids.foldl setFaissFirst chunks

/-- ingestion_service.py lines 15-28: look up the KnowledgeSource for
(tenant_id, source_id); if absent, add one (flush assigns its key).  Returns
the source row together with the updated session view. -/
def resolveSource (view0 : DB) (tenant_id : Nat) (data : KnowledgeIngest) :
    KnowledgeSource × DB :=
  match view0.sources.find?
      (fun r => r.tenant_id == tenant_id && r.source_id == data.source_id) with
  | some r => (r, view0)
  | none =>
    let r : KnowledgeSource :=
      ⟨view0.nextSourceId, tenant_id, data.source_type, data.source_id,
        data.name⟩
    (r, { view0 with
            sources := view0.sources ++ [r],
            nextSourceId := view0.nextSourceId + 1 })

/-- ingestion_service.py lines 39-46: create the Document row (add+flush
assigns its primary key).  Returns the row and the updated session view. -/
def addDocument (view1 : DB) (tenant_id knowledge_source_id : Nat)
    (data : KnowledgeIngest) : Document × DB :=
  let document : Document :=
    ⟨view1.nextDocId, tenant_id, knowledge_source_id, data.source_id,
      data.version⟩
  (document, { view1 with
                 docs := view1.docs ++ [document],
                 nextDocId := view1.nextDocId + 1 })

/-- ingestion_service.py lines 52-82: the tail of `ingest_knowledge` once a
nonempty chunk list exists — embed the chunks in one batch, load the tenant
index, add one DocumentChunk row per chunk (flush assigns keys), `db.commit()`
(line 71), add the vectors under the chunk primary keys and persist the index
(lines 73-74), confirm the `faiss_id` of each chunk and `db.commit()` again
(lines 76-80), and finally evaluate line 82 — whose `len(text_chunks)`
references an undefined variable (the local is named `chunks`), raising
NameError after all the durable effects above.  `view2` is the session view
holding the new Document row; `snapshots` lists the durable states in
order. -/
def ingestFullPath (embed : String → Vec) (s : Sys) (tenant_id : Nat)
    (data : KnowledgeIngest) (document_id : Nat) (chunks : List String)
    (view2 : DB) : IngestOutcome :=
  let vectors := chunks.map embed
  let index0 := loadTenantIndex s.files tenant_id
  let cres := addChunkRows tenant_id document_id data.source_id
    data.version view2 0 chunks
  let view3 := cres.1
  let chunk_ids := cres.2
  let s1 : Sys := ⟨view3, s.files⟩
  if chunk_ids.length > 0 then
    let index1 := index0.add_with_ids vectors
      (chunk_ids.map Int.ofNat)
    let s2 : Sys := ⟨s1.db, saveTenantIndex s.files tenant_id index1⟩
    let db3 := { s2.db with
      chunks := confirmFaissIds s2.db.chunks chunk_ids }
    let s3 : Sys := ⟨db3, s2.files⟩
    ⟨.error (.nameError "text_chunks"), s3, [s, s1, s2, s3]⟩
  else
    ⟨.error (.nameError "text_chunks"), s1, [s, s1]⟩

/-- ingestion_service.py lines 14-82: `ingest_knowledge(db, tenant_id, data)`.
Transcribed control flow:
1. find-or-create the KnowledgeSource (lines 15-28; create is add+flush,
   not yet committed);
2. idempotency check on (tenant_id, source_id, version) (lines 30-37);
3. create the Document row (lines 39-46, add+flush);
4. chunk the content with the settings defaults CHUNK_SIZE=500,
   CHUNK_OVERLAP=250 (line 48); zero chunks → early return (lines 49-50);
5. embed all chunks (line 52), load the tenant index (lines 54-55);
6. add all DocumentChunk rows (lines 57-69) and `db.commit()` (line 71);
7. add the vectors under the chunk primary keys and persist the index
   (lines 73-74);
8. confirm the `faiss_id` of each chunk and `db.commit()` (lines 76-80);
9. line 82 returns `{"message": ..., "document_id": ..., "chunks":
   len(text_chunks)}` — but no variable `text_chunks` is in scope (the local
   is named `chunks`), so the statement raises NameError after both commits
   and the index write have taken effect. -/
def ingest_knowledge (encode : String → List Nat)
    (decode : List Nat → String) (embed : String → Vec) (s : Sys)
    (tenant_id : Nat) (data : KnowledgeIngest) : IngestOutcome :=
  let sourceView := resolveSource s.db tenant_id data
  let source := sourceView.1
  let view1 := sourceView.2
  match view1.docs.find? (fun d => d.tenant_id == tenant_id &&
      d.source_id == data.source_id && d.version == data.version) with
  | some existing_doc => ⟨.ok (.alreadyExists existing_doc.id), s, [s]⟩
  | none =>
    let dres := addDocument view1 tenant_id source.id data
    let document := dres.1
    let view2 := dres.2
    let tokens := encode data.content
    match chunkLoop tokens 500 250 (tokens.length + 1) 0 [] with
    | none => ⟨.error .outOfFuel, s, [s]⟩
    | some token_chunks =>
      let chunks := token_chunks.map decode
      if chunks.length = 0 then ⟨.ok (.noContent document.id), s, [s]⟩
      else ingestFullPath embed s tenant_id data document.id chunks view2

/-- ingestion_service.py lines 85-102: `ingest_file` — generates a fresh
random `source_id` (`str(uuid.uuid4())`, modelled as the parameter
`fresh_source_id`), extracts the file text (external concern; passed in as
`file_content`) and delegates to `ingest_knowledge` with version 1 and source
type manual_upload. -/
def ingest_file (encode : String → List Nat) (decode : List Nat → String)
    (embed : String → Vec) (fresh_source_id : String) (s : Sys)
    (tenant_id : Nat) (file_content : String) (file_name : String) :
    IngestOutcome :=
  ingest_knowledge encode decode embed s tenant_id
    ⟨file_content, .manual_upload, fresh_source_id, 1, file_name⟩

/-- There is a committed DocumentChunk row of tenant `t` whose primary key is
the vector id `vid`. -/
def chunkRowFor (db : DB) (t : Nat) (vid : Int) : Prop :=
  ∃ c ∈ db.chunks, c.tenant_id = t ∧ (c.id : Int) = vid

/-- The core consistency contract of §3, direction "no vector without a chunk
row": every entry of every persisted tenant vector index has a matching committed
DocumentChunk row. -/
def consistentSys (s : Sys) : Prop :=
  ∀ t : Nat, ∀ e ∈ (loadTenantIndex s.files t).entries, chunkRowFor s.db t e.1

/-! ### Helper lemmas -/

/-- The chunking loop finishes within `tokens.length - start + 1` iterations
whenever the advance `chunk_size - chunk_overlap` is positive. -/
theorem chunkLoop_isSome (tokens : List Nat) (size overlap : Nat)
    (hso : overlap < size) :
    ∀ fuel start acc, tokens.length - start < fuel →
      (chunkLoop tokens size overlap fuel start acc).isSome := by
  intro fuel
  induction fuel with
  | zero => intro start acc h; omega
  | succ n ih =>
    intro start acc h
    rw [chunkLoop]
    by_cases hs : start < tokens.length
    · by_cases he : tokens.length ≤ start + size
      · simp [hs, he]
      · simp only [hs, if_true, he, if_false]
        exact ih _ _ (by omega)
    · simp [hs]

/-- The chunking loop only appends to its accumulator. -/
theorem chunkLoop_extends (tokens : List Nat) (size overlap : Nat) :
    ∀ fuel start acc l,
      chunkLoop tokens size overlap fuel start acc = some l →
      ∃ rest, l = acc ++ rest := by
  intro fuel
  induction fuel with
  | zero => intro start acc l h; exact absurd h (by simp [chunkLoop])
  | succ n ih =>
    intro start acc l h
    rw [chunkLoop] at h
    by_cases hs : start < tokens.length
    · by_cases he : tokens.length ≤ start + size
      · simp only [hs, if_true, he, Option.some.injEq] at h
        exact ⟨[(tokens.drop start).take size], h.symm⟩
      · simp only [hs, if_true, he, if_false] at h
        obtain ⟨rest, hrest⟩ := ih _ _ _ h
        exact ⟨[(tokens.drop start).take size] ++ rest, by
          rw [hrest, List.append_assoc]⟩
    · simp only [hs, if_false, Option.some.injEq] at h
      exact ⟨[], by rw [← h, List.append_nil]⟩

/-- On a nonempty token stream with a positive advance, the loop run by
`chunk_text` returns a nonempty chunk list. -/
theorem chunkLoop_full (tokens : List Nat) (size overlap : Nat)
    (hso : overlap < size) (hne : tokens ≠ []) :
    ∃ l, chunkLoop tokens size overlap (tokens.length + 1) 0 [] = some l ∧
      l ≠ [] := by
  have hs : (chunkLoop tokens size overlap (tokens.length + 1) 0 []).isSome :=
    chunkLoop_isSome tokens size overlap hso _ 0 [] (by omega)
  obtain ⟨l, hl⟩ := Option.isSome_iff_exists.mp hs
  refine ⟨l, hl, ?_⟩
  have hlen : 0 < tokens.length := List.length_pos.mpr hne
  rw [chunkLoop] at hl
  by_cases he : tokens.length ≤ 0 + size
  · simp only [hlen, if_true, he, Option.some.injEq] at hl
    intro hcon
    rw [hcon] at hl
    simp at hl
  · simp only [hlen, if_true, he, if_false] at hl
    obtain ⟨rest, hrest⟩ := chunkLoop_extends tokens size overlap _ _ _ _ hl
    intro hcon
    rw [hcon] at hrest
    simp at hrest

/-- Lemma: `resolveSource` only touches the sources table and its key
allocator. -/
theorem resolveSource_docs (v : DB) (t : Nat) (d : KnowledgeIngest) :
    (resolveSource v t d).2.docs = v.docs := by
  unfold resolveSource
  cases v.sources.find?
      (fun r => r.tenant_id == t && r.source_id == d.source_id) <;> rfl

theorem resolveSource_chunks (v : DB) (t : Nat) (d : KnowledgeIngest) :
    (resolveSource v t d).2.chunks = v.chunks := by
  unfold resolveSource
  cases v.sources.find?
      (fun r => r.tenant_id == t && r.source_id == d.source_id) <;> rfl

theorem resolveSource_nextDocId (v : DB) (t : Nat) (d : KnowledgeIngest) :
    (resolveSource v t d).2.nextDocId = v.nextDocId := by
  unfold resolveSource
  cases v.sources.find?
      (fun r => r.tenant_id == t && r.source_id == d.source_id) <;> rfl

theorem resolveSource_nextChunkId (v : DB) (t : Nat) (d : KnowledgeIngest) :
    (resolveSource v t d).2.nextChunkId = v.nextChunkId := by
  unfold resolveSource
  cases v.sources.find?
      (fun r => r.tenant_id == t && r.source_id == d.source_id) <;> rfl

/-- When no KnowledgeSource matches, `resolveSource` appends exactly one. -/
theorem resolveSource_sources_of_none (v : DB) (t : Nat) (d : KnowledgeIngest)
    (h : v.sources.find?
      (fun r => r.tenant_id == t && r.source_id == d.source_id) = none) :
    (resolveSource v t d).2.sources =
      v.sources ++ [⟨v.nextSourceId, t, d.source_type, d.source_id, d.name⟩] := by
  unfold resolveSource
  rw [h]

/-- When a KnowledgeSource matches, `resolveSource` is a pure lookup. -/
theorem resolveSource_of_some (v : DB) (t : Nat) (d : KnowledgeIngest)
    (r : KnowledgeSource)
    (h : v.sources.find?
      (fun r => r.tenant_id == t && r.source_id == d.source_id) = some r) :
    resolveSource v t d = (r, v) := by
  unfold resolveSource
  rw [h]

/-- Lemma: `addDocument` leaves the sources table untouched. -/
theorem addDocument_sources (v : DB) (t k : Nat) (d : KnowledgeIngest) :
    (addDocument v t k d).2.sources = v.sources := rfl

/-- Lemma: `addDocument` leaves the chunks table untouched. -/
theorem addDocument_chunks (v : DB) (t k : Nat) (d : KnowledgeIngest) :
    (addDocument v t k d).2.chunks = v.chunks := rfl

/-- Lemma: `addDocument` appends exactly its new Document row. -/
theorem addDocument_docs (v : DB) (t k : Nat) (d : KnowledgeIngest) :
    (addDocument v t k d).2.docs = v.docs ++ [(addDocument v t k d).1] := rfl

/-- Characterisation of the chunk-row loop: it appends one row per chunk text,
touches no other table, hands back exactly the primary keys of the new rows,
and
every new row belongs to the ingesting tenant. -/
theorem addChunkRows_spec (tenant_id document_id : Nat) (source_id : String)
    (version : Nat) :
    ∀ (cs : List String) (view : DB) (i : Nat),
      ∃ rows : List DocumentChunk,
        (addChunkRows tenant_id document_id source_id version view i cs).1.sources
            = view.sources ∧
        (addChunkRows tenant_id document_id source_id version view i cs).1.docs
            = view.docs ∧
        (addChunkRows tenant_id document_id source_id version view i cs).1.chunks
            = view.chunks ++ rows ∧
        (addChunkRows tenant_id document_id source_id version view i cs).2
            = rows.map (fun r => r.id) ∧
        rows.length = cs.length ∧
        ∀ r ∈ rows, r.tenant_id = tenant_id := by
  intro cs
  induction cs with
  | nil =>
    intro view i
    exact ⟨[], rfl, rfl, by simp [addChunkRows], rfl, rfl, by simp⟩
  | cons ct rest ih =>
    intro view i
    obtain ⟨rows, h1, h2, h3, h4, h5, h6⟩ :=
      ih { view with
             chunks := view.chunks ++ [⟨view.nextChunkId, tenant_id,
               document_id, i, ct, none, source_id, version, some 0, false⟩],
             nextChunkId := view.nextChunkId + 1 } (i + 1)
    refine ⟨⟨view.nextChunkId, tenant_id, document_id, i, ct, none, source_id,
      version, some 0, false⟩ :: rows, ?_, ?_, ?_, ?_, ?_, ?_⟩
    · rw [addChunkRows]; exact h1
    · rw [addChunkRows]; exact h2
    · rw [addChunkRows]; rw [h3]; simp
    · rw [addChunkRows]; simp only [List.map_cons]; rw [h4]
    · simp [h5]
    · intro r hr
      rcases List.mem_cons.mp hr with h | h
      · rw [h]
      · exact h6 r h

/-- Looking a key up after filtering a different key away is the original
lookup. -/
theorem find?_filter_keyNe (files : IndexFiles) (t u : Nat) (h : u ≠ t) :
    (files.filter (fun f => f.1 != t)).find? (fun f => f.1 == u) =
      files.find? (fun f => f.1 == u) := by
  induction files with
  | nil => rfl
  | cons f rest ih =>
    by_cases hf : f.1 = t
    · have hpf : (f.1 != t) = false := by simp [hf]
      have hpu : (f.1 == u) = false := by
        rw [hf]; exact beq_eq_false_iff_ne.mpr (Ne.symm h)
      rw [List.filter_cons_of_neg (by simp [hpf])]
      simp only [List.find?_cons, hpu, cond_false]
      exact ih
    · have hpf : (f.1 != t) = true := by simp [hf]
      rw [List.filter_cons_of_pos (by simp [hpf])]
      simp only [List.find?_cons]
      cases hu : (f.1 == u) with
      | true => rfl
      | false => exact ih

/-- Reading a tenant index after a write-through save: the written tenant
sees the new index, every other tenant is untouched. -/
theorem loadTenantIndex_save (files : IndexFiles) (t u : Nat)
    (idx : FaissIndex) :
    loadTenantIndex (saveTenantIndex files t idx) u =
      if u = t then idx else loadTenantIndex files u := by
  by_cases h : u = t
  · subst h
    rw [if_pos rfl]
    unfold loadTenantIndex saveTenantIndex
    simp [List.find?_cons]
  · rw [if_neg h]
    unfold loadTenantIndex saveTenantIndex
    have hpu : (((t, idx) : Nat × FaissIndex).1 == u) = false :=
      beq_eq_false_iff_ne.mpr (Ne.symm h)
    simp only [List.find?_cons, hpu, cond_false]
    rw [find?_filter_keyNe files t u h]

/-- The (primary key, tenant) footprint of a chunk row — the data the
consistency invariant depends on. -/
def idTenant (c : DocumentChunk) : Nat × Nat := (c.id, c.tenant_id)

/-- Confirming a `faiss_id` changes neither the keys nor the tenants of the
chunk rows. -/
theorem setFaissFirst_pairs (l : List DocumentChunk) (k : Nat) :
    (setFaissFirst l k).map idTenant = l.map idTenant := by
  induction l with
  | nil => rfl
  | cons c rest ih =>
    rw [setFaissFirst]
    by_cases h : c.id = k
    · simp [h, idTenant]
    · simp only [h, if_false, List.map_cons, ih]

/-- The whole confirmation loop preserves the (key, tenant) footprint. -/
theorem confirmFaissIds_pairs (ids : List Nat) :
    ∀ l : List DocumentChunk,
      (confirmFaissIds l ids).map idTenant = l.map idTenant := by
  induction ids with
  | nil => intro l; rfl
  | cons k rest ih =>
    intro l
    have : confirmFaissIds l (k :: rest) =
        confirmFaissIds (setFaissFirst l k) rest := rfl
    rw [this, ih, setFaissFirst_pairs]

/-- A matching chunk row survives any transformation that preserves the
(key, tenant) footprint. -/
theorem chunkRowFor_of_map_eq {l1 l2 : List DocumentChunk}
    (h : l2.map idTenant = l1.map idTenant) (t : Nat) (vid : Int)
    (hex : ∃ c ∈ l1, c.tenant_id = t ∧ (c.id : Int) = vid) :
    ∃ c ∈ l2, c.tenant_id = t ∧ (c.id : Int) = vid := by
  obtain ⟨c, hc, ht, hid⟩ := hex
  have hmem : idTenant c ∈ l2.map idTenant := by
    rw [h]; exact List.mem_map_of_mem idTenant hc
  obtain ⟨c2, hc2, he⟩ := List.mem_map.mp hmem
  have hid2 : c2.id = c.id := congrArg Prod.fst he
  have ht2 : c2.tenant_id = c.tenant_id := congrArg Prod.snd he
  exact ⟨c2, hc2, ht2.trans ht, by rw [hid2]; exact hid⟩

/-- Rebuilding a list of pairs from its component projections. -/
theorem zip_fst_snd {α β : Type} :
    ∀ l : List (α × β), (l.map Prod.fst).zip (l.map Prod.snd) = l := by
  intro l
  induction l with
  | nil => rfl
  | cons p rest ih => simp [ih]

/-- The "no vector without a chunk row" invariant survives committing extra
chunk rows while the index files are unchanged. -/
theorem consistent_extend (db db2 : DB) (files : IndexFiles)
    (h : consistentSys ⟨db, files⟩)
    (hc : ∃ rows, db2.chunks = db.chunks ++ rows) :
    consistentSys ⟨db2, files⟩ := by
  intro t e he
  obtain ⟨rows, hrows⟩ := hc
  obtain ⟨c, hcmem, hct, hcid⟩ := h t e he
  exact ⟨c, by rw [hrows]; exact List.mem_append_left _ hcmem, hct, hcid⟩

/-- The invariant survives the step-7 index write: the ids written are the
primary keys of chunk rows of the writing tenant that are already committed. -/
theorem consistent_after_add (db db2 : DB) (files : IndexFiles)
    (tenant_id : Nat) (rows : List DocumentChunk) (vectors : List Vec)
    (ids : List Int) (h : consistentSys ⟨db, files⟩)
    (hc : db2.chunks = db.chunks ++ rows)
    (hten : ∀ r ∈ rows, r.tenant_id = tenant_id)
    (hids : ids = (rows.map (fun r => r.id)).map Int.ofNat) :
    consistentSys ⟨db2, saveTenantIndex files tenant_id
      ((loadTenantIndex files tenant_id).add_with_ids vectors ids)⟩ := by
  intro t e he
  rw [loadTenantIndex_save] at he
  by_cases ht : t = tenant_id
  · subst ht
    rw [if_pos rfl] at he
    simp only [FaissIndex.add_with_ids] at he
    rcases List.mem_append.mp he with hold | hnew
    · obtain ⟨c, hcmem, hct, hcid⟩ := h t e hold
      exact ⟨c, by rw [hc]; exact List.mem_append_left _ hcmem, hct, hcid⟩
    · rw [hids] at hnew
      have h1 : e.1 ∈ (rows.map (fun r => r.id)).map Int.ofNat := by
        obtain ⟨a, b⟩ := e
        exact (List.of_mem_zip hnew).1
      rw [List.map_map] at h1
      obtain ⟨r, hr, hre⟩ := List.mem_map.mp h1
      exact ⟨r, by rw [hc]; exact List.mem_append_right _ hr, hten r hr, hre⟩
  · rw [if_neg ht] at he
    obtain ⟨c, hcmem, hct, hcid⟩ := h t e he
    exact ⟨c, by rw [hc]; exact List.mem_append_left _ hcmem, hct, hcid⟩

/-- The invariant survives the step-8 `faiss_id` confirmation commit. -/
theorem consistent_confirm (db : DB) (files : IndexFiles) (ids : List Nat)
    (h : consistentSys ⟨db, files⟩) :
    consistentSys
      ⟨{ db with chunks := confirmFaissIds db.chunks ids }, files⟩ := by
  intro t e he
  exact chunkRowFor_of_map_eq (confirmFaissIds_pairs ids db.chunks) t e.1
    (h t e he)

/-- With `exclude_deprecated = True`, the retrieval loop only accumulates
non-deprecated chunks (rag.py lines 38-39). -/
theorem retrieveAccum_foldl_not_deprecated (tbl : List DocumentChunk)
    (tenant_id : Nat) (fw : Rat) (n : Nat) :
    ∀ (cands : List (Rat × Int)) (acc : List ScoredChunk),
      (∀ x ∈ acc, x.chunk.is_deprecated = false) →
      ∀ x ∈ cands.foldl (retrieveAccum tbl tenant_id true fw n) acc,
        x.chunk.is_deprecated = false := by
  intro cands
  induction cands with
  | nil => intro acc hacc x hx; exact hacc x hx
  | cons cand rest ih =>
    intro acc hacc x hx
    rw [List.foldl_cons] at hx
    refine ih _ ?_ x hx
    intro y hy
    unfold retrieveAccum at hy
    by_cases hg : cand.2 = -1 ∨ (n : Int) ≤ cand.2
    · rw [if_pos hg] at hy; exact hacc y hy
    · rw [if_neg hg] at hy
      cases hfind : tbl.find?
          (fun c => c.tenant_id == tenant_id && ((c.id : Int) == cand.2)) with
      | none => rw [hfind] at hy; exact hacc y hy
      | some chunk =>
        rw [hfind] at hy
        by_cases hdep : chunk.is_deprecated = true
        · simp only [hdep, Bool.and_true, if_true] at hy
          exact hacc y hy
        · have hdf : chunk.is_deprecated = false :=
            Bool.eq_false_iff.mpr hdep
          simp only [hdf, Bool.and_false, if_false] at hy
          rcases List.mem_append.mp hy with hmem | hmem
          · exact hacc y hmem
          · rw [List.mem_singleton.mp hmem]
            simp [hdf]

/-- The Python slice `l[:k]` only selects elements of `l`. -/
theorem pySliceTo_subset {α : Type} (l : List α) (k : Int) :
    pySliceTo l k ⊆ l := by
  unfold pySliceTo
  by_cases h : 0 ≤ k
  · rw [if_pos h]; exact List.take_subset _ _
  · rw [if_neg h]; exact List.take_subset _ _

/-- The faiss-id confirmation loop never changes the number of chunk rows. -/
theorem confirmFaissIds_length (l : List DocumentChunk) (ids : List Nat) :
    (confirmFaissIds l ids).length = l.length := by
  have h1 := congrArg List.length (confirmFaissIds_pairs ids l)
  simpa [List.length_map] using h1

/-- Whatever else happens, the full ingestion path ends in the line-82
NameError: the `{document_id, chunk_count}` return is unreachable. -/
theorem ingestFullPath_ret (embed : String → Vec) (s : Sys) (tenant_id : Nat)
    (data : KnowledgeIngest) (document_id : Nat) (chunks : List String)
    (view2 : DB) :
    (ingestFullPath embed s tenant_id data document_id chunks view2).ret =
      Except.error (PyError.nameError "text_chunks") := by
  simp only [ingestFullPath]
  split <;> rfl

/-- Every durable snapshot of the full ingestion path keeps the
no-orphan-vector invariant, provided it starts consistent and the session
view has the same chunk table as the committed state. -/
theorem ingestFullPath_consistent (embed : String → Vec) (s : Sys)
    (tenant_id : Nat) (data : KnowledgeIngest) (document_id : Nat)
    (chunks : List String) (view2 : DB) (h : consistentSys s)
    (hch : view2.chunks = s.db.chunks) :
    ∀ s2 ∈ (ingestFullPath embed s tenant_id data document_id chunks
      view2).snapshots, consistentSys s2 := by
  obtain ⟨rows, h1, h2, h3, h4, h5, h6⟩ :=
    addChunkRows_spec tenant_id document_id data.source_id data.version
      chunks view2 0
  intro s2 hs2
  simp only [ingestFullPath] at hs2
  split at hs2 <;>
    simp only [List.mem_cons, List.not_mem_nil, or_false] at hs2
  · rcases hs2 with hs2 | hs2 | hs2 | hs2
    · rw [hs2]; exact h
    · rw [hs2]
      exact consistent_extend s.db _ s.files h ⟨rows, by rw [h3, hch]⟩
    · rw [hs2]
      exact consistent_after_add s.db _ s.files tenant_id rows _ _ h
        (by rw [h3, hch]) h6 (by rw [h4])
    · rw [hs2]
      exact consistent_confirm _ _ _
        (consistent_after_add s.db _ s.files tenant_id rows _ _ h
          (by rw [h3, hch]) h6 (by rw [h4]))
  · rcases hs2 with hs2 | hs2
    · rw [hs2]; exact h
    · rw [hs2]
      exact consistent_extend s.db _ s.files h ⟨rows, by rw [h3, hch]⟩

/-- Final durable row counts after the full ingestion path: sources and docs
are exactly those of the session view, and one chunk row was committed per
chunk. -/
theorem ingestFullPath_final (embed : String → Vec) (s : Sys)
    (tenant_id : Nat) (data : KnowledgeIngest) (document_id : Nat)
    (chunks : List String) (view2 : DB) (hne : chunks ≠ []) :
    (ingestFullPath embed s tenant_id data document_id chunks
        view2).final.db.sources = view2.sources ∧
    (ingestFullPath embed s tenant_id data document_id chunks
        view2).final.db.docs = view2.docs ∧
    (ingestFullPath embed s tenant_id data document_id chunks
        view2).final.db.chunks.length
      = view2.chunks.length + chunks.length := by
  obtain ⟨rows, h1, h2, h3, h4, h5, h6⟩ :=
    addChunkRows_spec tenant_id document_id data.source_id data.version
      chunks view2 0
  have hlen : (addChunkRows tenant_id document_id data.source_id data.version
      view2 0 chunks).2.length > 0 := by
    rw [h4, List.length_map, h5]
    exact List.length_pos.mpr hne
  simp only [ingestFullPath]
  rw [if_pos hlen]
  refine ⟨by simpa using h1, by simpa using h2, ?_⟩
  simp only [confirmFaissIds_length, h3, List.length_append, h5]

/-! ### Concrete fixtures for witnesses and counterexamples -/

/-- Toy deterministic tokenizer: one token per character. -/
def enc0 : String → List Nat := fun s => List.replicate s.length 0

/-- Toy deterministic detokenizer. -/
def dec0 : List Nat → String := fun l => toString l.length

/-- Toy deterministic embedder: every text maps to the vector [0]. -/
def emb0 : String → Vec := fun _ => [0]

/-- An empty system state (no rows, no index files). -/
def sys0 : Sys := ⟨⟨[], [], [], 1, 1, 1⟩, []⟩

/-- C4 fixture: a committed, non-deprecated chunk row of tenant 1 whose
primary key is 5. -/
def chunk5 : DocumentChunk :=
  ⟨5, 1, 1, 0, "hello", some 5, "s", 1, some 0, false⟩

/-- C4 fixture: the persisted index of tenant 1 holds exactly the vector
stored under the primary key of chunk 5. -/
def files4 : IndexFiles := [(1, ⟨384, [((5 : Int), [(0 : Rat)])]⟩)]

/-! ### Claim theorems -/

/-- C9: if the persisted index file is absent or unreadable/corrupt, `load_index`
produces a fresh empty index of dimension 384 instead of propagating an error
(the `except` branch falls back to `_create_index`), and a readable file is
loaded as-is.  `load_index` is a total function: no input makes the caller
fail. -/
theorem C9_load_index_recovers :
    load_index IndexFile.absent = createIndex ∧
    load_index IndexFile.corrupt = createIndex ∧
    createIndex.dimension = 384 ∧
    createIndex.entries = [] ∧
    ∀ idx : FaissIndex, load_index (IndexFile.good idx) = idx :=
  ⟨rfl, rfl, rfl, rfl, fun _ => rfl⟩

/-- With `chunk_overlap = chunk_size = 2` on a 3-token stream the advance
`chunk_size - chunk_overlap` is 0, so the loop revisits token 0 forever: no
amount of fuel makes it return. -/
theorem chunkLoop_stuck_overlap_eq :
    ∀ (fuel : Nat) (acc : List (List Nat)),
      chunkLoop [0, 1, 2] 2 2 fuel 0 acc = none := by
  intro fuel
  induction fuel with
  | zero => intro acc; rfl
  | succ n ih => intro acc; exact ih (acc ++ [[0, 1]])

/-- C5: `chunk_text` never raises `ConfigurationError` — no such check or
class exists in document_processor.py.  With `overlap_tokens = max_tokens` the
window start never advances and the loop runs forever (first conjunct: the
loop returns within no finite fuel on a 3-token text with
`chunk_size = chunk_overlap = 2`).  With `overlap_tokens < max_tokens` the
loop does produce the overlapping windows the claim describes (second
conjunct: size-3 windows with overlap 1 over 5 tokens). -/
theorem C5_overlap_not_rejected_loops_forever :
    (∀ (fuel : Nat) (acc : List (List Nat)),
        chunkLoop [0, 1, 2] 2 2 fuel 0 acc = none) ∧
    chunkLoop [0, 1, 2, 3, 4] 3 1 6 0 [] = some [[0, 1, 2], [2, 3, 4]] :=
  ⟨chunkLoop_stuck_overlap_eq, rfl⟩

/-- C6 counterexample: a retrieval call with `top_k = 0` (and an empty tenant
index) returns the normal empty result `Except.ok []` — it does not fail with
`ConfigurationError`, refuting the claim at this concrete input. -/
theorem C6_topk_zero_cex :
    retrieve_chunks emb0 [] [] 1 "q" 0 (1 / 10) true = Except.ok [] := rfl

/-- C6 amended: `retrieve_chunks` performs no `top_k` validation and never
raises `ConfigurationError` (the class does not exist in the repository); a
call with `top_k ≤ 0` against a tenant whose index is empty or absent returns
the empty list normally. -/
theorem C6_topk_nonpositive_returns_empty (embed_text : String → Vec)
    (chunks_table : List DocumentChunk) (files : IndexFiles)
    (tenant_id : Nat) (query : String) (top_k : Int)
    (freshness_weight : Rat) (exclude_deprecated : Bool)
    (hidx : (loadTenantIndex files tenant_id).entries = [])
    (_hk : top_k ≤ 0) :
    retrieve_chunks embed_text chunks_table files tenant_id query top_k
      freshness_weight exclude_deprecated = Except.ok [] := by
  simp [retrieve_chunks, FaissIndex.search, hidx, pySliceTo]

/-- C6 witness: the amended theorem applied at a concrete input. -/
theorem C6_topk_nonpositive_returns_empty_witness :
    ((loadTenantIndex [] 1).entries = [] ∧ (0 : Int) ≤ 0) ∧
    retrieve_chunks emb0 [] [] 1 "q" 0 (1 / 10) false = Except.ok [] :=
  ⟨⟨rfl, by decide⟩,
    C6_topk_nonpositive_returns_empty emb0 [] [] 1 "q" 0 (1 / 10) false rfl
      (by decide)⟩

/-- C4: refuted by the extra discard condition `faiss_id >= len(faiss_ids)`
(rag.py line 27).  The index of tenant 1 returns the single candidate
(distance 0, id 5); chunk 5 exists for tenant 1 and is not deprecated, and its
id is not -1, so by the claim it should be scored — yet the code discards it
because 5 ≥ 1 = number of candidates, and retrieval returns an empty list. -/
theorem C4_eligible_candidate_dropped :
    chunk5.is_deprecated = false ∧
    chunk5.tenant_id = 1 ∧
    (chunk5.id : Int) = 5 ∧
    ((loadTenantIndex files4 1).search (emb0 "q") (3 * 2)).2 = [5] ∧
    ((loadTenantIndex files4 1).search (emb0 "q") (3 * 2)).1.length = 1 ∧
    retrieve_chunks emb0 [chunk5] files4 1 "q" 3 (1 / 10) true =
      Except.ok [] :=
  ⟨rfl, rfl, rfl, rfl, rfl, rfl⟩

/-- C1: at every durable point during and after an `ingest_knowledge` run —
the initial state, after the chunk-row commit of line 71, after the
vector-index write of lines 73-74, and after the confirmation commit of line
80 — every entry of every tenant vector index has a matching committed
DocumentChunk row.  Chunk rows are committed before any vector is added, so a
vector with no matching chunk row is never produced, including under an
interruption between the metadata commit and the index write. -/
theorem C1_no_orphan_vectors (encode : String → List Nat)
    (decode : List Nat → String) (embed : String → Vec) (s : Sys)
    (tenant_id : Nat) (data : KnowledgeIngest) (h : consistentSys s) :
    ∀ s2 ∈ (ingest_knowledge encode decode embed s tenant_id data).snapshots,
      consistentSys s2 := by
  intro s2 hs2
  simp only [ingest_knowledge] at hs2
  split at hs2
  · simp only [List.mem_singleton] at hs2
    rw [hs2]; exact h
  · split at hs2
    · simp only [List.mem_singleton] at hs2
      rw [hs2]; exact h
    · split at hs2
      · simp only [List.mem_singleton] at hs2
        rw [hs2]; exact h
      · refine ingestFullPath_consistent embed s tenant_id data _ _ _ h ?_
          s2 hs2
        simp [addDocument_chunks, resolveSource_chunks]

/-- C1 witness: the invariant theorem applied to a fresh ingestion into the
empty system state. -/
theorem C1_no_orphan_vectors_witness :
    consistentSys sys0 ∧
    ∀ s2 ∈ (ingest_knowledge enc0 dec0 emb0 sys0 1
      ⟨"ab", SourceType.api, "s1", 1, "n"⟩).snapshots, consistentSys s2 :=
  have h0 : consistentSys sys0 := by
    intro t e he
    simp [loadTenantIndex, createIndex, sys0] at he
  ⟨h0, C1_no_orphan_vectors enc0 dec0 emb0 sys0 1
    ⟨"ab", SourceType.api, "s1", 1, "n"⟩ h0⟩

/-- C2: if a Document already exists for (tenant_id, source_id, version),
`ingest_knowledge` returns the id of that document (lines 30-37) and changes
nothing: no new Document, DocumentChunk rows, or vector-index entries — the
whole durable state is untouched, and the only snapshot is the initial
state. -/
theorem C2_reingest_is_noop (encode : String → List Nat)
    (decode : List Nat → String) (embed : String → Vec) (s : Sys)
    (tenant_id : Nat) (data : KnowledgeIngest) (d : Document)
    (hdoc : s.db.docs.find? (fun d2 => d2.tenant_id == tenant_id &&
      d2.source_id == data.source_id && d2.version == data.version)
      = some d) :
    ingest_knowledge encode decode embed s tenant_id data =
      ⟨Except.ok (IngestRet.alreadyExists d.id), s, [s]⟩ := by
  simp only [ingest_knowledge, resolveSource_docs, hdoc]

/-- C2 witness: re-ingesting a (tenant, source, version) triple whose
Document row exists returns its id and leaves the state unchanged. -/
theorem C2_reingest_is_noop_witness :
    ((⟨⟨[⟨1, 1, SourceType.api, "s1", "n"⟩], [⟨3, 1, 1, "s1", 1⟩], [], 2, 4,
        1⟩, []⟩ : Sys).db.docs.find? (fun d2 => d2.tenant_id == 1 &&
      d2.source_id == "s1" && d2.version == 1) = some ⟨3, 1, 1, "s1", 1⟩) ∧
    ingest_knowledge enc0 dec0 emb0
      ⟨⟨[⟨1, 1, SourceType.api, "s1", "n"⟩], [⟨3, 1, 1, "s1", 1⟩], [], 2, 4,
        1⟩, []⟩ 1 ⟨"ab", SourceType.api, "s1", 1, "n"⟩ =
      ⟨Except.ok (IngestRet.alreadyExists 3),
        ⟨⟨[⟨1, 1, SourceType.api, "s1", "n"⟩], [⟨3, 1, 1, "s1", 1⟩], [], 2, 4,
          1⟩, []⟩,
        [⟨⟨[⟨1, 1, SourceType.api, "s1", "n"⟩], [⟨3, 1, 1, "s1", 1⟩], [], 2,
          4, 1⟩, []⟩]⟩ :=
  ⟨rfl, C2_reingest_is_noop enc0 dec0 emb0 _ 1
    ⟨"ab", SourceType.api, "s1", 1, "n"⟩ ⟨3, 1, 1, "s1", 1⟩ rfl⟩

/-- C3: for a new (tenant_id, source_id, version) whose content produces at
least one chunk, `ingest_knowledge` does NOT return the
`{document_id, chunk_count}` result: line 82 references the undefined
variable `text_chunks` and the call raises NameError (after committing the
rows and writing the index). -/
theorem C3_ingest_raises_nameerror (encode : String → List Nat)
    (decode : List Nat → String) (embed : String → Vec) (s : Sys)
    (tenant_id : Nat) (data : KnowledgeIngest)
    (hdoc : s.db.docs.find? (fun d2 => d2.tenant_id == tenant_id &&
      d2.source_id == data.source_id && d2.version == data.version) = none)
    (htok : encode data.content ≠ []) :
    (ingest_knowledge encode decode embed s tenant_id data).ret =
      Except.error (PyError.nameError "text_chunks") := by
  obtain ⟨l, hl, hlne⟩ :=
    chunkLoop_full (encode data.content) 500 250 (by omega) htok
  have h0 : ¬((l.map decode).length = 0) := by
    simp only [List.length_map]
    exact fun hc => hlne (List.length_eq_zero.mp hc)
  simp only [ingest_knowledge, resolveSource_docs, hdoc, hl, if_neg h0]
  exact ingestFullPath_ret embed s tenant_id data _ _ _

/-- C3 witness: a fresh ingestion with one-token content hits the NameError. -/
theorem C3_ingest_raises_nameerror_witness :
    (sys0.db.docs.find? (fun d2 => d2.tenant_id == 1 &&
      d2.source_id == "s1" && d2.version == 1) = none) ∧
    enc0 "ab" ≠ [] ∧
    (ingest_knowledge enc0 dec0 emb0 sys0 1
      ⟨"ab", SourceType.api, "s1", 1, "n"⟩).ret =
      Except.error (PyError.nameError "text_chunks") :=
  ⟨rfl, by decide,
    C3_ingest_raises_nameerror enc0 dec0 emb0 sys0 1
      ⟨"ab", SourceType.api, "s1", 1, "n"⟩ rfl (by decide)⟩

/-- C7: with `exclude_deprecated = True`, every chunk returned by
`retrieve_chunks` has `is_deprecated = false` — the line-38 filter drops
deprecated chunks before scoring, and sorting/truncation only select from the
accumulated list. -/
theorem C7_exclude_deprecated_filter (embed_text : String → Vec)
    (chunks_table : List DocumentChunk) (files : IndexFiles)
    (tenant_id : Nat) (query : String) (top_k : Int)
    (freshness_weight : Rat) (l : List ScoredChunk)
    (hret : retrieve_chunks embed_text chunks_table files tenant_id query
      top_k freshness_weight true = Except.ok l) :
    ∀ x ∈ l, x.chunk.is_deprecated = false := by
  simp only [retrieve_chunks, Except.ok.injEq] at hret
  subst hret
  intro x hx
  have hx2 := pySliceTo_subset _ _ hx
  have hx3 := (List.perm_insertionSort scoreDescGe _).mem_iff.mp hx2
  exact retrieveAccum_foldl_not_deprecated chunks_table tenant_id
    freshness_weight _ _ [] (fun y hy => absurd hy (List.not_mem_nil y))
    x hx3

/-- C7 fixture: a deprecated chunk row of tenant 1 with primary key 0,
indexed under id 0. -/
def chunkDep : DocumentChunk :=
  ⟨0, 1, 1, 0, "old", some 0, "s", 1, some 0, true⟩

/-- C7 fixture: the index of tenant 1 holding only the deprecated chunk
vector. -/
def filesDep : IndexFiles := [(1, ⟨384, [((0 : Int), [(0 : Rat)])]⟩)]

/-- C7 witness: a retrieval whose only candidate is deprecated returns the
empty list, and the theorem applies to it. -/
theorem C7_exclude_deprecated_filter_witness :
    (retrieve_chunks emb0 [chunkDep] filesDep 1 "q" 3 (1 / 10) true
      = Except.ok []) ∧
    ∀ x ∈ ([] : List ScoredChunk), x.chunk.is_deprecated = false :=
  ⟨rfl, C7_exclude_deprecated_filter emb0 [chunkDep] filesDep 1 "q" 3
    (1 / 10) [] rfl⟩

/-- C8: for `k > 0`, `search` returns at most `k` (distance, id) pairs —
exactly `min k ntotal` of them — ordered by ascending distance; with fewer
than `k` entries it returns a permutation of all scored entries; on an empty
index it returns the empty result without error. -/
theorem C8_search_contract (idx : FaissIndex) (q : Vec) (k : Int)
    (hk : 0 < k) :
    ((idx.search q k).1.length = min k.toNat idx.entries.length) ∧
    ((idx.search q k).2.length = min k.toNat idx.entries.length) ∧
    List.Pairwise (fun a b : Rat => a ≤ b) (idx.search q k).1 ∧
    (idx.entries.length < k.toNat →
      ((idx.search q k).1.zip (idx.search q k).2).Perm
        (idx.entries.map (fun e => (sqDist q e.2, e.1)))) ∧
    (idx.entries = [] → idx.search q k = ([], [])) := by
  haveI : IsTotal (Rat × Int) (fun a b => a.1 ≤ b.1) :=
    ⟨fun a b => le_total a.1 b.1⟩
  haveI : IsTrans (Rat × Int) (fun a b => a.1 ≤ b.1) :=
    ⟨fun a b c hab hbc => le_trans hab hbc⟩
  by_cases hemp : idx.entries.length = 0
  · have he : idx.entries = [] := List.length_eq_zero.mp hemp
    simp only [FaissIndex.search, if_pos hemp]
    refine ⟨by simp [hemp], by simp [hemp], List.Pairwise.nil, ?_,
      fun _ => trivial⟩
    intro _
    rw [he]
    simp
  · simp only [FaissIndex.search, if_neg hemp]
    have hkk : (min k (idx.entries.length : Int)).toNat
        = min k.toNat idx.entries.length := by omega
    have hsl : (List.insertionSort (fun a b : Rat × Int => a.1 ≤ b.1)
        (idx.entries.map (fun e => (sqDist q e.2, e.1)))).length
        = idx.entries.length := by
      rw [List.length_insertionSort, List.length_map]
    refine ⟨?_, ?_, ?_, ?_, ?_⟩
    · simp only [List.length_map, List.length_take, hsl, hkk]
      omega
    · simp only [List.length_map, List.length_take, hsl, hkk]
      omega
    · have hp2 : List.Pairwise (fun a b : Rat × Int => a.1 ≤ b.1)
          (List.insertionSort (fun a b : Rat × Int => a.1 ≤ b.1)
            (idx.entries.map (fun e => (sqDist q e.2, e.1)))) :=
        List.sorted_insertionSort (fun a b : Rat × Int => a.1 ≤ b.1) _
      exact List.pairwise_map.mpr
        (List.Pairwise.sublist (List.take_sublist _ _) hp2)
    · intro hlt
      have hkn2 : (min k (idx.entries.length : Int)).toNat
          = (List.insertionSort (fun a b : Rat × Int => a.1 ≤ b.1)
            (idx.entries.map (fun e => (sqDist q e.2, e.1)))).length := by
        rw [hsl]; omega
      rw [zip_fst_snd, hkn2, List.take_length]
      exact List.perm_insertionSort _ _
    · intro he
      exact absurd (by rw [he]; rfl) hemp

/-- C8 fixture: a three-entry index for tenant-agnostic search checks. -/
def idx1 : FaissIndex :=
  ⟨384, [((5 : Int), [(0 : Rat)]), ((7 : Int), [(3 : Rat)]),
    ((9 : Int), [(1 : Rat)])]⟩

/-- C8 witness: the search contract applied to a concrete three-entry index
with k = 2. -/
theorem C8_search_contract_witness :
    (0 : Int) < 2 ∧
    (((idx1.search [0] 2).1.length = min (2 : Int).toNat
        idx1.entries.length) ∧
      ((idx1.search [0] 2).2.length = min (2 : Int).toNat
        idx1.entries.length) ∧
      List.Pairwise (fun a b : Rat => a ≤ b) (idx1.search [0] 2).1 ∧
      (idx1.entries.length < (2 : Int).toNat →
        ((idx1.search [0] 2).1.zip (idx1.search [0] 2).2).Perm
          (idx1.entries.map (fun e => (sqDist [0] e.2, e.1)))) ∧
      (idx1.entries = [] → idx1.search [0] 2 = ([], []))) :=
  ⟨by decide, C8_search_contract idx1 [0] 2 (by decide)⟩

/-- For a fresh (tenant, source, version) with tokenizable content,
`ingest_knowledge` commits the resolved source view, one new Document, and
one chunk row per chunk. -/
theorem ingest_new_doc_counts (encode : String → List Nat)
    (decode : List Nat → String) (embed : String → Vec) (s : Sys)
    (tenant_id : Nat) (data : KnowledgeIngest)
    (hdoc : s.db.docs.find? (fun d2 => d2.tenant_id == tenant_id &&
      d2.source_id == data.source_id && d2.version == data.version) = none)
    (htok : encode data.content ≠ []) :
    (ingest_knowledge encode decode embed s tenant_id data).final.db.sources
      = (resolveSource s.db tenant_id data).2.sources ∧
    (ingest_knowledge encode decode embed s tenant_id
      data).final.db.docs.length = s.db.docs.length + 1 ∧
    s.db.chunks.length <
      (ingest_knowledge encode decode embed s tenant_id
        data).final.db.chunks.length := by
  obtain ⟨l, hl, hlne⟩ :=
    chunkLoop_full (encode data.content) 500 250 (by omega) htok
  have h0 : ¬((l.map decode).length = 0) := by
    simp only [List.length_map]
    exact fun hc => hlne (List.length_eq_zero.mp hc)
  have hlm : l.map decode ≠ [] := fun hc => h0 (by rw [hc]; rfl)
  simp only [ingest_knowledge, resolveSource_docs, hdoc, hl, if_neg h0]
  obtain ⟨hfs, hfd, hfc⟩ := ingestFullPath_final embed s tenant_id data
    (addDocument (resolveSource s.db tenant_id data).2 tenant_id
      (resolveSource s.db tenant_id data).1.id data).1.id
    (l.map decode)
    (addDocument (resolveSource s.db tenant_id data).2 tenant_id
      (resolveSource s.db tenant_id data).1.id data).2 hlm
  refine ⟨?_, ?_, ?_⟩
  · rw [hfs, addDocument_sources]
  · rw [hfd, addDocument_docs]
    simp [resolveSource_docs]
  · rw [hfc, addDocument_chunks, resolveSource_chunks]
    have hlp : 0 < (l.map decode).length := Nat.pos_of_ne_zero h0
    omega

/-- C10: `ingest_file` generates a fresh random `source_id` (uuid4): when the
generated id matches no existing KnowledgeSource or Document and the file
text produces at least one token, the call creates one new KnowledgeSource,
one new Document, and new DocumentChunk rows.  Since a fresh uuid is drawn on
every call, uploading the same bytes and name twice repeats this — upload
ingestion is never idempotent at the file level, only at the generated
(source_id, version) level. -/
theorem C10_upload_never_idempotent (encode : String → List Nat)
    (decode : List Nat → String) (embed : String → Vec)
    (fresh_source_id : String) (s : Sys) (tenant_id : Nat)
    (file_content file_name : String)
    (hsrc : s.db.sources.find? (fun r => r.tenant_id == tenant_id &&
      r.source_id == fresh_source_id) = none)
    (hdoc : s.db.docs.find? (fun d2 => d2.tenant_id == tenant_id &&
      d2.source_id == fresh_source_id && d2.version == (1 : Nat)) = none)
    (htok : encode file_content ≠ []) :
    (ingest_file encode decode embed fresh_source_id s tenant_id file_content
        file_name).final.db.sources.length = s.db.sources.length + 1 ∧
    (ingest_file encode decode embed fresh_source_id s tenant_id file_content
        file_name).final.db.docs.length = s.db.docs.length + 1 ∧
    s.db.chunks.length <
      (ingest_file encode decode embed fresh_source_id s tenant_id
        file_content file_name).final.db.chunks.length := by
  obtain ⟨hs1, hd1, hc1⟩ := ingest_new_doc_counts encode decode embed s
    tenant_id ⟨file_content, SourceType.manual_upload, fresh_source_id, 1,
      file_name⟩ hdoc htok
  have hs2 := resolveSource_sources_of_none s.db tenant_id
    ⟨file_content, SourceType.manual_upload, fresh_source_id, 1, file_name⟩
    hsrc
  refine ⟨?_, hd1, hc1⟩
  show (ingest_knowledge encode decode embed s tenant_id
    ⟨file_content, SourceType.manual_upload, fresh_source_id, 1,
      file_name⟩).final.db.sources.length = s.db.sources.length + 1
  rw [hs1, hs2]
  simp

/-- C10 witness: uploading a two-character file into the empty system creates
one source, one document, and at least one chunk. -/
theorem C10_upload_never_idempotent_witness :
    (sys0.db.sources.find? (fun r => r.tenant_id == 1 &&
      r.source_id == "u1") = none) ∧
    (sys0.db.docs.find? (fun d2 => d2.tenant_id == 1 &&
      d2.source_id == "u1" && d2.version == (1 : Nat)) = none) ∧
    enc0 "ab" ≠ [] ∧
    ((ingest_file enc0 dec0 emb0 "u1" sys0 1 "ab"
        "f.txt").final.db.sources.length = sys0.db.sources.length + 1 ∧
      (ingest_file enc0 dec0 emb0 "u1" sys0 1 "ab"
        "f.txt").final.db.docs.length = sys0.db.docs.length + 1 ∧
      sys0.db.chunks.length <
        (ingest_file enc0 dec0 emb0 "u1" sys0 1 "ab"
          "f.txt").final.db.chunks.length) :=
  ⟨rfl, rfl, by decide,
    C10_upload_never_idempotent enc0 dec0 emb0 "u1" sys0 1 "ab" "f.txt" rfl
      rfl (by decide)⟩

end VectorWorkspaces
